import Mathlib

set_option maxHeartbeats 1000000

/- Verification of the session-multiplexing HTTP gateway of mcp-playwright
(`src/index.ts`, function `startStreamableHttpServer` and its helpers).
JavaScript strings are modelled as Lean strings (lists of characters); the
external collaborators (the JSON parser, the SDK handshake predicate, the
transport handle, the disk and the id generator) are modelled as explicit
parameters of the step function. -/

/-- JSON values as produced by the runtime JSON parser; numbers are modelled as
integers since no claim depends on fractional values. -/
inductive Json where
  | null
  | bool (b : Bool)
  | num (n : Int)
  | str (s : String)
  | arr (elems : List Json)
  | obj (entries : List (String × Json))

/-- Truthiness of a JSON value under JavaScript coercion rules: null, false, 0
and the empty string are falsy; arrays and objects are always truthy. -/
def jsTruthy : Json → Bool
  | .null => false
  | .bool b => b
  | .num n => n != 0
  | .str s => s != ""
  | .arr _ => true
  | .obj _ => true

/-- Error envelope built by sendJsonError and by the 500 handler in index.ts:
JSON.stringify of an object with jsonrpc "2.0", an error object holding the
code and the message, and a null id. -/
def errorEnvelope (code : Int) (message : String) : Json :=
  .obj [("jsonrpc", .str "2.0"),
        ("error", .obj [("code", .num code), ("message", .str message)]),
        ("id", .null)]

/-- Boolean test that the first character list is an initial segment of the
second one. -/
def startsL : List Char → List Char → Bool
  | [], _ => true
  | _ :: _, [] => false
  | a :: as, b :: bs => a == b && startsL as bs

/-- Model of the JavaScript call s.startsWith(p). -/
def startsWithStr (s p : String) : Bool := startsL p.data s.data

/-- Strip leading and trailing whitespace characters, modelling the JavaScript
call String.prototype.trim. -/
def trimChars (l : List Char) : List Char :=
  ((l.dropWhile Char.isWhitespace).reverse.dropWhile Char.isWhitespace).reverse

/-- String-level wrapper of trimChars. -/
def jsTrim (s : String) : String := ⟨trimChars s.data⟩

/-- Split a character list at every occurrence of sep, modelling the JavaScript
call String.prototype.split with a one-character separator; the empty input
yields one empty segment, as in JavaScript. -/
def splitOnChar (sep : Char) : List Char → List (List Char)
  | [] => [[]]
  | c :: cs =>
    match splitOnChar sep cs with
    | [] => [[]]
    | h :: t => if c == sep then [] :: h :: t else (c :: h) :: t

/-- Lookup in an association list, modelling reading obj[k] on a plain object. -/
def assocFind {α β : Type} [DecidableEq α] (m : List (α × β)) (k : α) : Option β :=
  (m.find? (fun p => decide (p.1 = k))).map (fun p => p.2)

/-- Deletion, modelling the JavaScript delete operator on a plain object. -/
def assocErase {α β : Type} [DecidableEq α] (m : List (α × β)) (k : α) : List (α × β) :=
  m.filter (fun p => decide (p.1 ≠ k))

/-- Insertion by assignment, modelling obj[k] = v on a plain object (keys stay
unique). -/
def assocSet {α β : Type} [DecidableEq α] (m : List (α × β)) (k : α) (v : β) : List (α × β) :=
  (k, v) :: assocErase m k

/-- One Registry entry: the owning server instance (by identity) paired with
the transport's minted session id, as held in sessions[k]. -/
structure SessionEntry where
  serverId : Nat
  transportSessionId : Option String
deriving DecidableEq

/-- Modelled from the spec: a Resource Store record (resourceManager.ts is not
among the provided sources; only its callers are). Per section 4.2 a record
keeps its owning server instance, its id, a file path, a mime type, a display
name and an expiry deadline equal to creation time plus the configured ttl. -/
structure FileResource where
  owner : Nat
  rid : String
  filePath : String
  mimeType : Option String
  name : String
  expiry : Nat
deriving DecidableEq

/-- The mutable state closed over by startStreamableHttpServer: the sessions
object, the sessionByServer map, the resource store's records and the set of
server instances whose close method has been invoked. -/
structure GatewayState where
  sessions : List (String × SessionEntry)
  sessionByServer : List (Nat × String)
  resources : List FileResource
  closedServers : List Nat
deriving DecidableEq

/-- Modelled from the spec: getFileResourceById of resourceManager.ts. Per
section 4.2, get(owner, id) returns absent when the id is unknown, when the
owner mismatches, or when now has reached the expiry deadline (lazy expiry
check on every access). -/
def getFileResourceById (resources : List FileResource) (owner : Nat) (rid : String)
    (now : Nat) : Option FileResource :=
  resources.find? (fun r => decide (r.rid = rid) && decide (r.owner = owner) && decide (now < r.expiry))

/-- Modelled from the spec: clearResourcesForServer of resourceManager.ts
removes every record owned by the given server instance (section 4.2,
clearForOwner). -/
def clearResourcesForServer (resources : List FileResource) (owner : Nat) : List FileResource :=
  resources.filter (fun r => decide (r.owner ≠ owner))

/-- Modelled from the spec: the Resource Store register operation stores a
record with expiry = now + ttl (section 4.2). -/
def registerResource (resources : List FileResource) (owner : Nat) (rid : String)
    (filePath : String) (mimeType : Option String) (name : String) (now ttl : Nat) :
    List FileResource :=
  { owner := owner, rid := rid, filePath := filePath, mimeType := mimeType,
    name := name, expiry := now + ttl } :: resources

/-- An inbound HTTP request as seen by the handler: the parsed URL pathname
(none when req.url is absent), the method (none defaults to GET), the
mcp-session-id header and the collected POST body. -/
structure HttpRequest where
  url : Option String
  method : Option String
  sessionHeader : Option String
  rawBody : String

/-- Body of an HTTP response written by the gateway itself. -/
inductive ResponseBody where
  | text (s : String)
  | jsonBody (j : Json)
  | fileStream (filePath : String) (contentType : String) (dispositionName : String)

/-- Outcome of handling one request: either a response written by the gateway,
or delegation to the transport handle of the named server instance. -/
inductive HttpResponse where
  | sent (status : Nat) (body : ResponseBody)
  | forwarded (serverId : Nat)

/-- Per-request external inputs: the id minted by randomUUID for a handshake,
the identity of a freshly constructed server instance, the clock value used by
the lazy expiry check, and whether stating/streaming the file on disk
succeeds. -/
structure StepInputs where
  freshId : String
  freshServerId : Nat
  now : Nat
  fileOk : Bool

/-- sendJsonError of startStreamableHttpServer: a response with the given
status whose body is the protocol-error envelope with code -32000. -/
def sendJsonError (status : Nat) (message : String) : HttpResponse :=
  .sent status (.jsonBody (errorEnvelope (-32000) message))

/-- Last slash-separated segment of a string, modelling the basename call used
for the content-disposition file name. -/
def lastSegment (s : String) : String := ⟨(splitOnChar '/' s.data).getLastD []⟩

/-- getSession of startStreamableHttpServer: an absent header yields undefined;
an empty header string is falsy; otherwise the id is looked up in sessions. -/
def getSessionEntry (st : GatewayState) (hdr : Option String) : Option SessionEntry :=
  match hdr with
  | none => none
  | some h => if h = "" then none else assocFind st.sessions h

/-- Segments of a download pathname: the part of the pathname after the
download root, split at every slash, as computed by slice and split in the
download branch. -/
def downloadSegments (normalizedPath pathname : String) : List String :=
  (splitOnChar '/' (pathname.data.drop ((normalizedPath ++ "/resources/").data.length))).map
    (fun l => (⟨l⟩ : String))

/-- Download responder: the body of the branch of startStreamableHttpServer
taken when the pathname starts with the download root. The remainder of the
pathname is split on slashes; fewer than two segments is a malformed path; the
first segment is resolved in sessions and the second in the resource store
scoped to that session's server instance. Success and failure of stating and
streaming the file are abstracted by StepInputs.fileOk, the disk being
external. -/
def downloadResponder (normalizedPath : String) (inp : StepInputs) (st : GatewayState)
    (pathname : String) : HttpResponse :=
  match downloadSegments normalizedPath pathname with
  | sessionId :: resourceId :: _ =>
    match assocFind st.sessions sessionId with
    | none => .sent 404 (.text "Not Found")
    | some session =>
      match getFileResourceById st.resources session.serverId resourceId inp.now with
      | none => .sent 404 (.text "Not Found")
      | some fileResource =>
        if inp.fileOk then
          .sent 200 (.fileStream fileResource.filePath
            (fileResource.mimeType.getD "application/octet-stream")
            (lastSegment fileResource.name))
        else
          .sent 500 (.text "Failed to serve file")
  | _ => .sent 400 (.text "Invalid download path")

/-- Insertion into the set of closed server instances: Server.close is
effective at most once. -/
def insertClosed (l : List Nat) (s : Nat) : List Nat := if s ∈ l then l else s :: l

/-- The transport.onclose callback registered at session creation: drop the
transport's session id from the registry when it is a truthy id still present,
close the owning server instance, clear its resources and unbind it from
sessionByServer. -/
def oncloseTeardown (entry : SessionEntry) (st : GatewayState) : GatewayState :=
  let st1 :=
    match entry.transportSessionId with
    | some sid =>
      if sid ≠ "" ∧ (assocFind st.sessions sid).isSome then
        { st with sessions := assocErase st.sessions sid }
      else st
    | none => st
  { st1 with
    closedServers := insertClosed st1.closedServers entry.serverId,
    resources := clearResourcesForServer st1.resources entry.serverId,
    sessionByServer := assocErase st1.sessionByServer entry.serverId }

/-- Truthiness of the transport's session id as tested in the DELETE branch. -/
def sessionIdTruthy : Option String → Bool
  | some s => s != ""
  | none => false

/-- Handshake branch of the POST handler: a fresh server instance and a fresh
transport are created; the transport mints the session id (modelled by
StepInputs.freshId since randomUUID is external) while handling the forwarded
handshake body, and the registration callback then stores the pair in sessions
and binds it in sessionByServer. The immediate registration guarded by the
transport's session id does not fire because that id is still unset right
after construction. -/
def handshakeStep (inp : StepInputs) (st : GatewayState) : GatewayState × HttpResponse :=
  ({ st with
      sessions := assocSet st.sessions inp.freshId
        { serverId := inp.freshServerId, transportSessionId := some inp.freshId },
      sessionByServer := assocSet st.sessionByServer inp.freshServerId inp.freshId },
   .forwarded inp.freshServerId)

/-- POST handling after body collection and parsing: an existing session gets
the parsed body forwarded; otherwise a falsy or non-handshake body is rejected
with the protocol-error envelope, and a handshake body creates a session. -/
def handlePostParsed (isInit : Json → Bool) (inp : StepInputs) (st : GatewayState)
    (hdr : Option String) (parsedBody : Option Json) : GatewayState × HttpResponse :=
  match getSessionEntry st hdr with
  | some existing => (st, .forwarded existing.serverId)
  | none =>
    match parsedBody with
    | some j =>
      if jsTruthy j && isInit j then handshakeStep inp st
      else (st, sendJsonError 400 "Bad Request: No valid session ID provided")
    | none => (st, sendJsonError 400 "Bad Request: No valid session ID provided")

/-- POST branch of the handler: collect the body; a non-empty body that the
JSON parser rejects is answered 400 with the Invalid JSON body envelope before
any session lookup; an empty body is left unparsed. -/
def handlePost (parseJson : String → Option Json) (isInit : Json → Bool) (inp : StepInputs)
    (st : GatewayState) (req : HttpRequest) : GatewayState × HttpResponse :=
  if req.rawBody = "" then handlePostParsed isInit inp st req.sessionHeader none
  else
    match parseJson req.rawBody with
    | none => (st, sendJsonError 400 "Invalid JSON body")
    | some j => handlePostParsed isInit inp st req.sessionHeader (some j)

/-- GET and DELETE handling on the protocol path. Forwarding to the transport
is opaque. Modelled from the spec for the transport side: per section 4.3
cases 5 and 7 a forwarded DELETE makes the external transport terminate the
session, so the registered onclose teardown runs during the forwarding; the
explicit DELETE branch then clears the owned resources and drops both registry
entries. -/
def handleGetDelete (st : GatewayState) (hdr : Option String) (method : String) :
    GatewayState × HttpResponse :=
  match getSessionEntry st hdr with
  | none => (st, .sent 400 (.text "Invalid or missing session ID"))
  | some session =>
    let st1 := if method = "DELETE" then oncloseTeardown session st else st
    let st2 :=
      if method = "DELETE" ∧ sessionIdTruthy session.transportSessionId then
        { st1 with
          resources := clearResourcesForServer st1.resources session.serverId,
          sessions := assocErase st1.sessions (session.transportSessionId.getD ""),
          sessionByServer := assocErase st1.sessionByServer session.serverId }
      else st1
    (st2, .forwarded session.serverId)

/-- Request handler of startStreamableHttpServer: an absent URL is Not Found;
a pathname under the download root is delegated to the download responder; any
other pathname that is not the protocol path is Not Found; on the protocol
path POST, GET and DELETE are dispatched and any other method is answered
405. -/
def handleRequest (parseJson : String → Option Json) (isInit : Json → Bool)
    (normalizedPath : String) (inp : StepInputs) (st : GatewayState) (req : HttpRequest) :
    GatewayState × HttpResponse :=
  let method := req.method.getD "GET"
  match req.url with
  | none => (st, .sent 404 (.text "Not Found"))
  | some pathname =>
    if startsWithStr pathname (normalizedPath ++ "/resources/") then
      (st, downloadResponder normalizedPath inp st pathname)
    else if pathname ≠ normalizedPath then (st, .sent 404 (.text "Not Found"))
    else if method = "POST" then handlePost parseJson isInit inp st req
    else if method = "GET" ∨ method = "DELETE" then handleGetDelete st req.sessionHeader method
    else (st, .sent 405 (.text "Method Not Allowed"))

/-- Run a sequence of requests with their per-request external inputs. -/
def runTrace (parseJson : String → Option Json) (isInit : Json → Bool) (normalizedPath : String) :
    GatewayState → List (StepInputs × HttpRequest) → GatewayState
  | st, [] => st
  | st, step :: rest =>
    runTrace parseJson isInit normalizedPath
      (handleRequest parseJson isInit normalizedPath step.1 st step.2).1 rest

/-- Registry well-formedness maintained by the code: every entry is keyed by
its transport's minted, non-empty session id. -/
def WellFormedSessions (st : GatewayState) : Prop :=
  ∀ p ∈ st.sessions, p.2.transportSessionId = some p.1 ∧ p.1 ≠ ""

/-- normalizeHttpPath of index.ts at character-list level: trim, reject the
empty result (the thrown Error is modelled as none), ensure a leading slash,
then strip one trailing slash unless the whole value is the root slash. -/
def normChars (l : List Char) : Option (List Char) :=
  let t := trimChars l
  if t = [] then none
  else
    let w := if t.head? = some '/' then t else '/' :: t
    if w.getLast? = some '/' ∧ w ≠ ['/'] then some w.dropLast else some w

/-- String-level wrapper of normChars. -/
def normalizeHttpPath (s : String) : Option String :=
  (normChars s.data).map (fun l => (⟨l⟩ : String))

/-- Condition on a trimmed path under which stripping one trailing slash is a
complete normalization: either it does not end in a slash, or what stands
before the final slash is empty, the root, or a character that is neither a
slash nor whitespace. -/
def lastOk (u : List Char) : Bool :=
  match u.getLast? with
  | some c => !(c == '/') && !c.isWhitespace
  | none => true

/-- Decidable guard for the amended normalization claim. -/
def tailOkChars (t : List Char) : Bool :=
  if t.getLast? = some '/' then
    (decide (t.dropLast = []) || decide (t.dropLast = ['/']) || lastOk t.dropLast)
  else true

/-- Drain loop of the close function in startStreamableHttpServer: iterate the
snapshot of session ids, attempt to close each owning server instance (a
throwing close is caught and logged), and delete each entry. The fails
argument says which server instances throw on close. Returned are the
remaining map, the instances whose close was attempted, in order, and the ids
logged as failed. -/
def closeLoop (fails : Nat → Bool) : List String → List (String × SessionEntry) →
    List (String × SessionEntry) × List Nat × List String
  | [], sessions => (sessions, [], [])
  | sid :: rest, sessions =>
    match assocFind sessions sid with
    | some e =>
      let r := closeLoop fails rest (assocErase sessions sid)
      (r.1, e.serverId :: r.2.1, if fails e.serverId then sid :: r.2.2 else r.2.2)
    | none =>
      let r := closeLoop fails rest sessions
      (r.1, r.2.1, sid :: r.2.2)

/-- The close function: snapshot the keys of sessions and run the drain loop. -/
def closeDrain (fails : Nat → Bool) (st : GatewayState) :
    GatewayState × List Nat × List String :=
  let r := closeLoop fails (st.sessions.map (fun p => p.1)) st.sessions
  ({ st with sessions := r.1 }, r.2.1, r.2.2)

/-- The closed-over flag of registerShutdown. -/
structure ShutdownCtl where
  isShuttingDown : Bool
deriving DecidableEq

/-- The registered signal handler of registerShutdown: a repeated signal is a
no-op once the flag is set; the first signal sets the flag, runs the cleanup
drain and exits (the returned Bool records whether process exit was
reached). -/
def shutdownSignal (fails : Nat → Bool) (ctl : ShutdownCtl) (st : GatewayState) :
    ShutdownCtl × GatewayState × Bool :=
  if ctl.isShuttingDown then (ctl, st, false)
  else ({ isShuttingDown := true }, (closeDrain fails st).1, true)

/- Helper lemmas about the association-list operations. -/

theorem assocFind_eq_none_iff {α β : Type} [DecidableEq α] (m : List (α × β)) (k : α) :
    assocFind m k = none ↔ ∀ p ∈ m, p.1 ≠ k := by
  simp [assocFind, Option.map_eq_none', List.find?_eq_none]

theorem assocFind_erase_self {α β : Type} [DecidableEq α] (m : List (α × β)) (k : α) :
    assocFind (assocErase m k) k = none := by
  rw [assocFind_eq_none_iff]
  intro p hp
  have := List.of_mem_filter hp
  simpa using this

theorem assocFind_filter_keep {α β : Type} [DecidableEq α] (m : List (α × β))
    (q : α × β → Bool) (j : α) (hq : ∀ p : α × β, p.1 = j → q p = true) :
    assocFind (m.filter q) j = assocFind m j := by
  induction m with
  | nil => rfl
  | cons p rest ih =>
    by_cases hpj : p.1 = j
    · have hqp : q p = true := hq p hpj
      simp [List.filter_cons, hqp, assocFind, List.find?_cons, hpj]
    · cases hqp : q p with
      | false =>
        simp only [List.filter_cons, hqp, Bool.false_eq_true, if_false]
        rw [ih]
        simp [assocFind, List.find?_cons, hpj]
      | true =>
        simp only [List.filter_cons, hqp, if_true]
        simp only [assocFind, List.find?_cons] at ih ⊢
        simpa [hpj] using ih

theorem assocFind_erase_ne {α β : Type} [DecidableEq α] (m : List (α × β)) (k j : α)
    (h : j ≠ k) : assocFind (assocErase m k) j = assocFind m j := by
  unfold assocErase
  exact assocFind_filter_keep m _ j (fun p hp => by simp [hp]; exact h)

theorem assocFind_erase_none {α β : Type} [DecidableEq α] (m : List (α × β)) (k j : α)
    (h : assocFind m j = none) : assocFind (assocErase m k) j = none := by
  by_cases hjk : j = k
  · subst hjk; exact assocFind_erase_self m j
  · rw [assocFind_erase_ne m k j hjk]; exact h

theorem assocFind_set_self {α β : Type} [DecidableEq α] (m : List (α × β)) (k : α) (v : β) :
    assocFind (assocSet m k v) k = some v := by
  simp [assocSet, assocFind, List.find?_cons]

theorem assocFind_set_ne {α β : Type} [DecidableEq α] (m : List (α × β)) (k j : α) (v : β)
    (h : j ≠ k) : assocFind (assocSet m k v) j = assocFind m j := by
  have hk : ¬(k = j) := fun he => h he.symm
  have he := assocFind_erase_ne m k j h
  simp only [assocSet, assocFind, List.find?_cons] at he ⊢
  simpa [hk] using he

theorem assocFind_mem {α β : Type} [DecidableEq α] (m : List (α × β)) (k : α) (v : β)
    (h : assocFind m k = some v) : (k, v) ∈ m := by
  simp only [assocFind, Option.map_eq_some'] at h
  obtain ⟨p, hfind, hv⟩ := h
  have hmem := List.mem_of_find?_eq_some hfind
  have hpred := List.find?_some hfind
  simp only [decide_eq_true_eq] at hpred
  have : p = (k, v) := by
    cases p; simp only [Prod.mk.injEq]; exact ⟨hpred, hv⟩
  rwa [this] at hmem

theorem assocErase_of_find_none {α β : Type} [DecidableEq α] (m : List (α × β)) (k : α)
    (h : assocFind m k = none) : assocErase m k = m := by
  rw [assocFind_eq_none_iff] at h
  rw [assocErase, List.filter_eq_self]
  intro p hp
  simpa using h p hp

theorem assocErase_idem {α β : Type} [DecidableEq α] (m : List (α × β)) (k : α) :
    assocErase (assocErase m k) k = assocErase m k := by
  simp [assocErase, List.filter_filter]

theorem clearResources_idem (resources : List FileResource) (owner : Nat) :
    clearResourcesForServer (clearResourcesForServer resources owner) owner
      = clearResourcesForServer resources owner := by
  simp [clearResourcesForServer, List.filter_filter]

/- Helper lemmas about the string operations. -/

theorem startsL_append (a b : List Char) : startsL a (a ++ b) = true := by
  induction a with
  | nil => rfl
  | cons c cs ih => simp [startsL, ih]

theorem startsL_length_le (a b : List Char) (h : startsL a b = true) : a.length ≤ b.length := by
  induction a generalizing b with
  | nil => exact Nat.zero_le _
  | cons c cs ih =>
    cases b with
    | nil => exact absurd h (by simp [startsL])
    | cons d ds =>
      simp only [startsL, Bool.and_eq_true] at h
      simpa [List.length_cons] using Nat.succ_le_succ (ih ds h.2)

theorem startsL_strict (a b : List Char) (hb : b ≠ []) : startsL (a ++ b) a = false := by
  by_contra hcon
  have h : startsL (a ++ b) a = true := by
    cases hx : startsL (a ++ b) a
    · exact absurd hx hcon
    · rfl
  have := startsL_length_le _ _ h
  simp only [List.length_append] at this
  have hb0 : b.length = 0 := by omega
  exact hb (List.length_eq_zero.mp hb0)

theorem string_data_nil {q : String} (h : q.data = []) : q = "" := String.ext h

theorem startsWithStr_of_append (p r : String) : startsWithStr (p ++ r) p = true := by
  simp [startsWithStr, String.data_append, startsL_append]

theorem startsWithStr_strict (p q : String) (h : q ≠ "") : startsWithStr p (p ++ q) = false := by
  have hq : q.data ≠ [] := fun hnil => h (string_data_nil hnil)
  simp [startsWithStr, String.data_append, startsL_strict _ _ hq]

theorem splitOnChar_ne_nil (sep : Char) (l : List Char) : splitOnChar sep l ≠ [] := by
  induction l with
  | nil => simp [splitOnChar]
  | cons c cs ih =>
    simp only [splitOnChar]
    cases h : splitOnChar sep cs with
    | nil => exact absurd h ih
    | cons x xs =>
      by_cases hc : c == sep <;> simp [hc]

theorem splitOnChar_not_mem (sep : Char) (l : List Char) (h : sep ∉ l) :
    splitOnChar sep l = [l] := by
  induction l with
  | nil => rfl
  | cons c cs ih =>
    have hc : c ≠ sep := fun he => h (he ▸ List.mem_cons_self c cs)
    have hcs : sep ∉ cs := fun hm => h (List.mem_cons_of_mem c hm)
    simp only [splitOnChar, ih hcs]
    simp [hc]

theorem splitOnChar_append (sep : Char) (a b : List Char) (h : sep ∉ a) :
    splitOnChar sep (a ++ sep :: b) = a :: splitOnChar sep b := by
  induction a with
  | nil =>
    simp only [List.nil_append, splitOnChar]
    cases hb : splitOnChar sep b with
    | nil => exact absurd hb (splitOnChar_ne_nil sep b)
    | cons x xs => simp
  | cons c cs ih =>
    have hc : c ≠ sep := fun he => h (he ▸ List.mem_cons_self c cs)
    have hcs : sep ∉ cs := fun hm => h (List.mem_cons_of_mem c hm)
    show splitOnChar sep (c :: (cs ++ sep :: b)) = (c :: cs) :: splitOnChar sep b
    rw [splitOnChar, ih hcs]
    simp [hc]

theorem downloadSegments_append (np rest : String) :
    downloadSegments np ((np ++ "/resources/") ++ rest)
      = (splitOnChar '/' rest.data).map (fun l => (⟨l⟩ : String)) := by
  unfold downloadSegments
  rw [String.data_append (np ++ "/resources/") rest, List.drop_left]

/- Dispatch lemmas for the request handler. -/

theorem handleRequest_protocol (pj : String → Option Json) (isInit : Json → Bool)
    (np : String) (inp : StepInputs) (st : GatewayState) (req : HttpRequest)
    (hurl : req.url = some np) :
    handleRequest pj isInit np inp st req =
      (if req.method.getD "GET" = "POST" then handlePost pj isInit inp st req
       else if req.method.getD "GET" = "GET" ∨ req.method.getD "GET" = "DELETE" then
         handleGetDelete st req.sessionHeader (req.method.getD "GET")
       else (st, .sent 405 (.text "Method Not Allowed"))) := by
  have h1 : startsWithStr np (np ++ "/resources/") = false :=
    startsWithStr_strict np "/resources/" (by decide)
  simp [handleRequest, hurl, h1]

theorem handleRequest_download (pj : String → Option Json) (isInit : Json → Bool)
    (np : String) (inp : StepInputs) (st : GatewayState) (req : HttpRequest) (p : String)
    (hurl : req.url = some p) (h : startsWithStr p (np ++ "/resources/") = true) :
    handleRequest pj isInit np inp st req = (st, downloadResponder np inp st p) := by
  simp [handleRequest, hurl, h]

/- Content lemmas shared by the error-surface claims. -/

theorem post_invalid_json (pj : String → Option Json) (isInit : Json → Bool)
    (np : String) (inp : StepInputs) (st : GatewayState) (hdr : Option String) (body : String)
    (hne : body ≠ "") (hparse : pj body = none) :
    handleRequest pj isInit np inp st ⟨some np, some "POST", hdr, body⟩
      = (st, .sent 400 (.jsonBody (errorEnvelope (-32000) "Invalid JSON body"))) := by
  rw [handleRequest_protocol pj isInit np inp st _ rfl]
  simp [handlePost, hne, hparse, sendJsonError]

theorem post_no_valid_session (pj : String → Option Json) (isInit : Json → Bool)
    (np : String) (inp : StepInputs) (st : GatewayState) (hdr : Option String) (body : String)
    (hsess : getSessionEntry st hdr = none)
    (hbody : body = "" ∨ ∃ j, pj body = some j ∧ (jsTruthy j = false ∨ isInit j = false)) :
    handleRequest pj isInit np inp st ⟨some np, some "POST", hdr, body⟩
      = (st, .sent 400 (.jsonBody
          (errorEnvelope (-32000) "Bad Request: No valid session ID provided"))) := by
  rw [handleRequest_protocol pj isInit np inp st _ rfl]
  rcases hbody with hemp | ⟨j, hj, hrej⟩
  · simp [handlePost, hemp, handlePostParsed, hsess, sendJsonError]
  · by_cases hemp : body = ""
    · simp [handlePost, hemp, handlePostParsed, hsess, sendJsonError]
    · rcases hrej with hr | hr <;>
        simp [handlePost, hemp, hj, handlePostParsed, hsess, sendJsonError, hr]

theorem getdelete_no_session (pj : String → Option Json) (isInit : Json → Bool)
    (np : String) (inp : StepInputs) (st : GatewayState) (hdr : Option String)
    (m : String) (body : String) (hm : m = "GET" ∨ m = "DELETE")
    (hsess : getSessionEntry st hdr = none) :
    handleRequest pj isInit np inp st ⟨some np, some m, hdr, body⟩
      = (st, .sent 400 (.text "Invalid or missing session ID")) := by
  rw [handleRequest_protocol pj isInit np inp st _ rfl]
  have hnp : m ≠ "POST" := by rcases hm with h | h <;> subst h <;> decide
  simp [hnp, hm, handleGetDelete, hsess]

theorem downloadResponder_shape (np : String) (inp : StepInputs) (st : GatewayState)
    (p : String) :
    downloadResponder np inp st p = .sent 400 (.text "Invalid download path") ∨
    downloadResponder np inp st p = .sent 404 (.text "Not Found") ∨
    (∃ f c d, downloadResponder np inp st p = .sent 200 (.fileStream f c d)) ∨
    downloadResponder np inp st p = .sent 500 (.text "Failed to serve file") := by
  rcases hsegs : downloadSegments np p with _ | ⟨sid, _ | ⟨rid, rs⟩⟩ <;>
      simp only [downloadResponder, hsegs]
  · simp
  · simp
  · cases hfind : assocFind st.sessions sid with
    | none => simp
    | some session =>
      cases hres : getFileResourceById st.resources session.serverId rid inp.now with
      | none => simp [hres]
      | some r => by_cases hk : inp.fileOk <;> simp [hk, hres]

/-- C1: a POST to the protocol path whose non-empty body the JSON parser
rejects is answered HTTP 400 with the protocol-error envelope carrying code
-32000 and message "Invalid JSON body", and the whole gateway state is left
untouched; this holds for every registry content and every value of the
mcp-session-id header, so the response is produced before and independently
of any session lookup. -/
theorem c1_post_invalid_json (pj : String → Option Json) (isInit : Json → Bool)
    (np : String) (inp : StepInputs) (st : GatewayState) (hdr : Option String) (body : String)
    (hne : body ≠ "") (hparse : pj body = none) :
    handleRequest pj isInit np inp st ⟨some np, some "POST", hdr, body⟩
      = (st, .sent 400 (.jsonBody (errorEnvelope (-32000) "Invalid JSON body"))) :=
  post_invalid_json pj isInit np inp st hdr body hne hparse

theorem c1_post_invalid_json_witness :
    handleRequest (fun _ => none) (fun _ => false) "/mcp" ⟨"f", 0, 0, true⟩ ⟨[], [], [], []⟩
        ⟨some "/mcp", some "POST", some "sess", "notjson"⟩
      = (⟨[], [], [], []⟩, .sent 400 (.jsonBody (errorEnvelope (-32000) "Invalid JSON body"))) :=
  c1_post_invalid_json (fun _ => none) (fun _ => false) "/mcp" ⟨"f", 0, 0, true⟩
    ⟨[], [], [], []⟩ (some "sess") "notjson" (by decide) rfl

/-- C6: a POST to the protocol path with no resolvable active session whose
body is absent, or parses to a value that is falsy or not recognized as a
handshake request, is answered 400 with the protocol-error envelope message
"Bad Request: No valid session ID provided", and the state - in particular
the session registry - is unchanged. -/
theorem c6_post_no_session (pj : String → Option Json) (isInit : Json → Bool)
    (np : String) (inp : StepInputs) (st : GatewayState) (hdr : Option String) (body : String)
    (hsess : getSessionEntry st hdr = none)
    (hbody : body = "" ∨ ∃ j, pj body = some j ∧ (jsTruthy j = false ∨ isInit j = false)) :
    handleRequest pj isInit np inp st ⟨some np, some "POST", hdr, body⟩
      = (st, .sent 400 (.jsonBody
          (errorEnvelope (-32000) "Bad Request: No valid session ID provided"))) :=
  post_no_valid_session pj isInit np inp st hdr body hsess hbody

theorem c6_post_no_session_witness :
    handleRequest (fun _ => some Json.null) (fun _ => false) "/mcp" ⟨"f", 0, 0, true⟩
        ⟨[], [], [], []⟩ ⟨some "/mcp", some "POST", some "gone", "null"⟩
      = (⟨[], [], [], []⟩, .sent 400 (.jsonBody
          (errorEnvelope (-32000) "Bad Request: No valid session ID provided"))) :=
  c6_post_no_session (fun _ => some Json.null) (fun _ => false) "/mcp" ⟨"f", 0, 0, true⟩
    ⟨[], [], [], []⟩ (some "gone") "null" rfl
    (Or.inr ⟨Json.null, rfl, Or.inl rfl⟩)

/-- C4 counterexample: a GET on the protocol path with no session header is
answered 400 with the plain text body "Invalid or missing session ID", which
is not a JSON envelope of any kind, contradicting the claim that every client
protocol error carries the structured envelope. -/
theorem c4_counterexample :
    handleRequest (fun _ => none) (fun _ => false) "/mcp" ⟨"f", 0, 0, true⟩ ⟨[], [], [], []⟩
        ⟨some "/mcp", some "GET", none, ""⟩
      = (⟨[], [], [], []⟩, .sent 400 (.text "Invalid or missing session ID")) ∧
    ResponseBody.text "Invalid or missing session ID"
      ≠ ResponseBody.jsonBody (errorEnvelope (-32000) "Invalid or missing session ID") :=
  ⟨rfl, fun h => ResponseBody.noConfusion h⟩

/-- C4 amended: client protocol errors are surfaced as HTTP 4xx responses,
but only the POST-path errors carry the structured envelope with code -32000
(malformed JSON, and missing/unknown session with a non-handshake body); the
400 for a GET or DELETE with a missing or unresolvable session id carries the
plain text body "Invalid or missing session ID" instead of the envelope. -/
theorem c4_error_surface :
    (∀ (pj : String → Option Json) (isInit : Json → Bool) (np : String) (inp : StepInputs)
       (st : GatewayState) (hdr : Option String) (body : String),
       body ≠ "" → pj body = none →
       handleRequest pj isInit np inp st ⟨some np, some "POST", hdr, body⟩
         = (st, .sent 400 (.jsonBody (errorEnvelope (-32000) "Invalid JSON body")))) ∧
    (∀ (pj : String → Option Json) (isInit : Json → Bool) (np : String) (inp : StepInputs)
       (st : GatewayState) (hdr : Option String) (body : String),
       getSessionEntry st hdr = none →
       (body = "" ∨ ∃ j, pj body = some j ∧ (jsTruthy j = false ∨ isInit j = false)) →
       handleRequest pj isInit np inp st ⟨some np, some "POST", hdr, body⟩
         = (st, .sent 400 (.jsonBody
             (errorEnvelope (-32000) "Bad Request: No valid session ID provided")))) ∧
    (∀ (pj : String → Option Json) (isInit : Json → Bool) (np : String) (inp : StepInputs)
       (st : GatewayState) (hdr : Option String) (m body : String),
       (m = "GET" ∨ m = "DELETE") → getSessionEntry st hdr = none →
       handleRequest pj isInit np inp st ⟨some np, some m, hdr, body⟩
         = (st, .sent 400 (.text "Invalid or missing session ID"))) :=
  ⟨fun pj isInit np inp st hdr body h1 h2 =>
      post_invalid_json pj isInit np inp st hdr body h1 h2,
   fun pj isInit np inp st hdr body h1 h2 =>
      post_no_valid_session pj isInit np inp st hdr body h1 h2,
   fun pj isInit np inp st hdr m body h1 h2 =>
      getdelete_no_session pj isInit np inp st hdr m body h1 h2⟩

theorem c4_error_surface_witness :
    handleRequest (fun _ => none) (fun _ => false) "/mcp" ⟨"f", 0, 0, true⟩ ⟨[], [], [], []⟩
        ⟨some "/mcp", some "DELETE", some "nosuch", ""⟩
      = (⟨[], [], [], []⟩, .sent 400 (.text "Invalid or missing session ID")) :=
  c4_error_surface.2.2 (fun _ => none) (fun _ => false) "/mcp" ⟨"f", 0, 0, true⟩
    ⟨[], [], [], []⟩ (some "nosuch") "DELETE" "" (Or.inr rfl) rfl

/-- C10: a request whose pathname is under the resource-download root is
handled entirely by the download responder whatever its method, header or
body: the handler's result is literally the download responder's answer with
the state untouched (so the body is never parsed and the session state
machine is never consulted), that answer is never 405, never a JSON envelope
and never a forwarding to a transport, and in particular an unknown session
id in the path yields 404 Not Found. -/
theorem c10_download_any_method (pj : String → Option Json) (isInit : Json → Bool)
    (np : String) (inp : StepInputs) (st : GatewayState)
    (m hdr : Option String) (body p : String)
    (h : startsWithStr p (np ++ "/resources/") = true) :
    handleRequest pj isInit np inp st ⟨some p, m, hdr, body⟩
      = (st, downloadResponder np inp st p) ∧
    (∀ b, downloadResponder np inp st p ≠ .sent 405 b) ∧
    (∀ n j, downloadResponder np inp st p ≠ .sent n (.jsonBody j)) ∧
    (∀ sid, downloadResponder np inp st p ≠ .forwarded sid) ∧
    (∀ sid rid rs, downloadSegments np p = sid :: rid :: rs →
       assocFind st.sessions sid = none →
       downloadResponder np inp st p = .sent 404 (.text "Not Found")) := by
  refine ⟨handleRequest_download pj isInit np inp st _ p rfl h, ?_, ?_, ?_, ?_⟩
  · intro b
    rcases downloadResponder_shape np inp st p with h1 | h1 | ⟨f, c, d, h1⟩ | h1 <;>
      rw [h1] <;> simp
  · intro n j
    rcases downloadResponder_shape np inp st p with h1 | h1 | ⟨f, c, d, h1⟩ | h1 <;>
      rw [h1] <;> simp
  · intro sid
    rcases downloadResponder_shape np inp st p with h1 | h1 | ⟨f, c, d, h1⟩ | h1 <;>
      rw [h1] <;> simp
  · intro sid rid rs hsegs hfind
    simp [downloadResponder, hsegs, hfind]

theorem c10_download_any_method_witness :
    handleRequest (fun _ => none) (fun _ => false) "/mcp" ⟨"f", 0, 0, true⟩ ⟨[], [], [], []⟩
        ⟨some "/mcp/resources/unknown/r1", some "PUT", some "hdr", "notjson"⟩
      = (⟨[], [], [], []⟩,
         downloadResponder "/mcp" ⟨"f", 0, 0, true⟩ ⟨[], [], [], []⟩ "/mcp/resources/unknown/r1") ∧
    downloadResponder "/mcp" ⟨"f", 0, 0, true⟩ ⟨[], [], [], []⟩ "/mcp/resources/unknown/r1"
      = .sent 404 (.text "Not Found") := by
  have h := c10_download_any_method (fun _ => none) (fun _ => false) "/mcp" ⟨"f", 0, 0, true⟩
    ⟨[], [], [], []⟩ (some "PUT") (some "hdr") "notjson" "/mcp/resources/unknown/r1" (by decide)
  exact ⟨h.1, h.2.2.2.2 "unknown" "r1" [] (by decide) rfl⟩

theorem slash_data : ("/" : String).data = ['/'] := rfl

theorem mk_data (s : String) : (⟨s.data⟩ : String) = s := rfl

/-- C3: the download responder follows exactly the specified steps: fewer than
two path segments after the download root is a 400 Invalid download path; only
the first two segments determine the lookup, a trailing filename segment never
affecting the result; an unknown session id yields 404; an absent, mismatched
or expired resource id yields 404; and per the Resource Store model a resource
registered with ttl 1 at time t is absent at time t + 2 yet retrievable
immediately at time t. -/
theorem c3_download_responder_steps (np : String) (inp : StepInputs) (st : GatewayState) :
    (∀ p, (downloadSegments np p).length < 2 →
       downloadResponder np inp st p = .sent 400 (.text "Invalid download path")) ∧
    (∀ sid rid extra : String, ('/' : Char) ∉ sid.data → ('/' : Char) ∉ rid.data →
       downloadResponder np inp st ((np ++ "/resources/") ++ (sid ++ "/" ++ rid ++ "/" ++ extra))
         = downloadResponder np inp st ((np ++ "/resources/") ++ (sid ++ "/" ++ rid))) ∧
    (∀ p sid rid rs, downloadSegments np p = sid :: rid :: rs →
       assocFind st.sessions sid = none →
       downloadResponder np inp st p = .sent 404 (.text "Not Found")) ∧
    (∀ p sid rid rs e, downloadSegments np p = sid :: rid :: rs →
       assocFind st.sessions sid = some e →
       getFileResourceById st.resources e.serverId rid inp.now = none →
       downloadResponder np inp st p = .sent 404 (.text "Not Found")) ∧
    (∀ (resources : List FileResource) (owner : Nat) (rid fp nm : String)
       (mime : Option String) (t : Nat),
       getFileResourceById (registerResource resources owner rid fp mime nm t 1) owner rid (t + 2)
         = getFileResourceById resources owner rid (t + 2) ∧
       getFileResourceById (registerResource resources owner rid fp mime nm t 1) owner rid t
         = some { owner := owner, rid := rid, filePath := fp, mimeType := mime, name := nm,
                  expiry := t + 1 }) := by
  refine ⟨?_, ?_, ?_, ?_, ?_⟩
  · intro p h
    rcases hsegs : downloadSegments np p with _ | ⟨sid, _ | ⟨rid, rs⟩⟩
    · simp [downloadResponder, hsegs]
    · simp [downloadResponder, hsegs]
    · rw [hsegs] at h
      simp at h
      omega
  · intro sid rid extra hs hr
    have e1 : ((sid ++ "/" ++ rid ++ "/" ++ extra) : String).data
        = sid.data ++ '/' :: (rid.data ++ '/' :: extra.data) := by
      simp [String.data_append, slash_data, List.append_assoc]
    have e2 : ((sid ++ "/" ++ rid) : String).data = sid.data ++ '/' :: rid.data := by
      simp [String.data_append, slash_data, List.append_assoc]
    have segL : downloadSegments np ((np ++ "/resources/") ++ (sid ++ "/" ++ rid ++ "/" ++ extra))
        = sid :: rid :: (splitOnChar '/' extra.data).map (fun l => (⟨l⟩ : String)) := by
      rw [downloadSegments_append, e1, splitOnChar_append _ _ _ hs,
        splitOnChar_append _ _ _ hr]
      simp [mk_data]
    have segR : downloadSegments np ((np ++ "/resources/") ++ (sid ++ "/" ++ rid))
        = [sid, rid] := by
      rw [downloadSegments_append, e2, splitOnChar_append _ _ _ hs,
        splitOnChar_not_mem _ _ hr]
      simp [mk_data]
    simp only [downloadResponder, segL, segR]
  · intro p sid rid rs hsegs hfind
    simp [downloadResponder, hsegs, hfind]
  · intro p sid rid rs e hsegs hfind hres
    simp [downloadResponder, hsegs, hfind, hres]
  · intro resources owner rid fp nm mime t
    constructor
    · simp [getFileResourceById, registerResource, List.find?_cons]
    · simp [getFileResourceById, registerResource, List.find?_cons]

theorem c3_download_responder_steps_witness :
    downloadResponder "/mcp" ⟨"f", 0, 2, true⟩
        ⟨[("A", ⟨1, some "A"⟩)], [(1, "A")],
         registerResource [] 1 "r1" "/tmp/f" none "shot.png" 0 1, []⟩
        "/mcp/resources/onlyone"
      = .sent 400 (.text "Invalid download path") ∧
    downloadResponder "/mcp" ⟨"f", 0, 2, true⟩
        ⟨[("A", ⟨1, some "A"⟩)], [(1, "A")],
         registerResource [] 1 "r1" "/tmp/f" none "shot.png" 0 1, []⟩
        (("/mcp" ++ "/resources/") ++ ("A" ++ "/" ++ "r1" ++ "/" ++ "shot.png"))
      = downloadResponder "/mcp" ⟨"f", 0, 2, true⟩
        ⟨[("A", ⟨1, some "A"⟩)], [(1, "A")],
         registerResource [] 1 "r1" "/tmp/f" none "shot.png" 0 1, []⟩
        (("/mcp" ++ "/resources/") ++ ("A" ++ "/" ++ "r1")) ∧
    downloadResponder "/mcp" ⟨"f", 0, 2, true⟩
        ⟨[("A", ⟨1, some "A"⟩)], [(1, "A")],
         registerResource [] 1 "r1" "/tmp/f" none "shot.png" 0 1, []⟩
        "/mcp/resources/B/r1"
      = .sent 404 (.text "Not Found") ∧
    downloadResponder "/mcp" ⟨"f", 0, 2, true⟩
        ⟨[("A", ⟨1, some "A"⟩)], [(1, "A")],
         registerResource [] 1 "r1" "/tmp/f" none "shot.png" 0 1, []⟩
        "/mcp/resources/A/r1"
      = .sent 404 (.text "Not Found") ∧
    getFileResourceById (registerResource [] 1 "r1" "/tmp/f" none "shot.png" 0 1) 1 "r1" 0
      = some { owner := 1, rid := "r1", filePath := "/tmp/f", mimeType := none,
               name := "shot.png", expiry := 1 } := by
  have h := c3_download_responder_steps "/mcp" ⟨"f", 0, 2, true⟩
    ⟨[("A", ⟨1, some "A"⟩)], [(1, "A")],
     registerResource [] 1 "r1" "/tmp/f" none "shot.png" 0 1, []⟩
  exact ⟨h.1 "/mcp/resources/onlyone" (by decide),
         h.2.1 "A" "r1" "shot.png" (by decide) (by decide),
         h.2.2.1 "/mcp/resources/B/r1" "B" "r1" [] (by decide) rfl,
         h.2.2.2.1 "/mcp/resources/A/r1" "A" "r1" [] ⟨1, some "A"⟩ (by decide) rfl rfl,
         (h.2.2.2.2 [] 1 "r1" "/tmp/f" "shot.png" none 0).2⟩

/-- C5: resource lookup is scoped to the server instance owning the session
named in the path: with a resource owned by session A's server instance and a
distinct session B, a download naming B's session id together with that
resource's id is answered 404 (given that resource ids are owner-unique, as
opaque generated ids are); and whenever the responder serves a file with 200,
the served record belongs to the resource store scoped to the server instance
of the session named in the path. -/
theorem c5_owner_scoping (np : String) (inp : StepInputs) (st : GatewayState)
    (sidA sidB : String) (eA eB : SessionEntry) (r : FileResource)
    (hA : assocFind st.sessions sidA = some eA)
    (hB : assocFind st.sessions sidB = some eB)
    (hmem : r ∈ st.resources) (hown : r.owner = eA.serverId)
    (hdist : eB.serverId ≠ eA.serverId)
    (huniq : ∀ r2 ∈ st.resources, r2.rid = r.rid → r2.owner = r.owner)
    (hs : ('/' : Char) ∉ sidB.data) (hr : ('/' : Char) ∉ r.rid.data) :
    downloadResponder np inp st ((np ++ "/resources/") ++ (sidB ++ "/" ++ r.rid))
      = .sent 404 (.text "Not Found") ∧
    (∀ p fp ct dn, downloadResponder np inp st p = .sent 200 (.fileStream fp ct dn) →
       ∃ sid rid rs e r2, downloadSegments np p = sid :: rid :: rs ∧
         assocFind st.sessions sid = some e ∧
         getFileResourceById st.resources e.serverId rid inp.now = some r2 ∧
         r2 ∈ st.resources ∧ r2.owner = e.serverId ∧ fp = r2.filePath) := by
  constructor
  · have e2 : ((sidB ++ "/" ++ r.rid) : String).data = sidB.data ++ '/' :: r.rid.data := by
      simp [String.data_append, slash_data, List.append_assoc]
    have segs : downloadSegments np ((np ++ "/resources/") ++ (sidB ++ "/" ++ r.rid))
        = [sidB, r.rid] := by
      rw [downloadSegments_append, e2, splitOnChar_append _ _ _ hs,
        splitOnChar_not_mem _ _ hr]
      simp [mk_data]
    have hres : getFileResourceById st.resources eB.serverId r.rid inp.now = none := by
      rw [getFileResourceById, List.find?_eq_none]
      intro r2 hr2
      simp only [Bool.and_eq_true, decide_eq_true_eq]
      rintro ⟨⟨hrid, howner⟩, -⟩
      have := huniq r2 hr2 hrid
      rw [howner, hown] at this
      exact hdist this
    simp [downloadResponder, segs, hB, hres]
  · intro p fp ct dn h200
    rcases hsegs : downloadSegments np p with _ | ⟨sid, _ | ⟨rid, rs⟩⟩
    · simp only [downloadResponder, hsegs] at h200
      simp at h200
    · simp only [downloadResponder, hsegs] at h200
      simp at h200
    · simp only [downloadResponder, hsegs] at h200
      cases hfind : assocFind st.sessions sid with
      | none => simp only [hfind] at h200; simp at h200
      | some e =>
        simp only [hfind] at h200
        cases hres : getFileResourceById st.resources e.serverId rid inp.now with
        | none => simp [hres] at h200
        | some r2 =>
          simp only [hres] at h200
          by_cases hk : inp.fileOk = true
          · simp only [hk, if_true, HttpResponse.sent.injEq, ResponseBody.fileStream.injEq,
              true_and] at h200
            obtain ⟨hfp, hct, hdn⟩ := h200
            have hpred := List.find?_some (show List.find? _ st.resources = some r2 from hres)
            simp only [Bool.and_eq_true, decide_eq_true_eq] at hpred
            have hmem2 := List.mem_of_find?_eq_some
              (show List.find? _ st.resources = some r2 from hres)
            exact ⟨sid, rid, rs, e, r2, rfl, hfind, hres, hmem2, hpred.1.2, hfp.symm⟩
          · simp [hk] at h200

theorem c5_owner_scoping_witness :
    downloadResponder "/mcp" ⟨"f", 0, 0, true⟩
        ⟨[("A", ⟨1, some "A"⟩), ("B", ⟨2, some "B"⟩)], [(1, "A"), (2, "B")],
         [⟨1, "r1", "/tmp/f", none, "n", 10⟩], []⟩
        (("/mcp" ++ "/resources/") ++ ("B" ++ "/" ++ "r1"))
      = .sent 404 (.text "Not Found") :=
  (c5_owner_scoping "/mcp" ⟨"f", 0, 0, true⟩
      ⟨[("A", ⟨1, some "A"⟩), ("B", ⟨2, some "B"⟩)], [(1, "A"), (2, "B")],
       [⟨1, "r1", "/tmp/f", none, "n", 10⟩], []⟩
      "A" "B" ⟨1, some "A"⟩ ⟨2, some "B"⟩ ⟨1, "r1", "/tmp/f", none, "n", 10⟩
      rfl rfl (by simp) rfl (by decide) (by decide) (by decide) (by decide)).1

/- Teardown computation lemmas. -/

theorem oncloseTeardown_no_session (st2 : GatewayState) (e : SessionEntry) (sid : String)
    (htsid : e.transportSessionId = some sid)
    (hnone : assocFind st2.sessions sid = none) :
    oncloseTeardown e st2 =
      { sessions := st2.sessions,
        sessionByServer := assocErase st2.sessionByServer e.serverId,
        resources := clearResourcesForServer st2.resources e.serverId,
        closedServers := insertClosed st2.closedServers e.serverId } := by
  unfold oncloseTeardown
  rw [htsid]
  dsimp only
  rw [if_neg (by simp [hnone])]

theorem insertClosed_mem (l : List Nat) (s : Nat) : s ∈ insertClosed l s := by
  unfold insertClosed
  by_cases h : s ∈ l <;> simp [h]

theorem insertClosed_of_mem (l : List Nat) (s : Nat) (h : s ∈ l) : insertClosed l s = l := by
  simp [insertClosed, h]

theorem oncloseTeardown_eq (st : GatewayState) (sid : String) (e : SessionEntry)
    (hsid : sid ≠ "") (htsid : e.transportSessionId = some sid)
    (hfind : assocFind st.sessions sid = some e) :
    oncloseTeardown e st =
      { sessions := assocErase st.sessions sid,
        sessionByServer := assocErase st.sessionByServer e.serverId,
        resources := clearResourcesForServer st.resources e.serverId,
        closedServers := insertClosed st.closedServers e.serverId } := by
  have hguard : sid ≠ "" ∧ (assocFind st.sessions sid).isSome := ⟨hsid, by simp [hfind]⟩
  simp [oncloseTeardown, htsid, hguard]

theorem handleGetDelete_delete_eq (st : GatewayState) (sid : String) (e : SessionEntry)
    (hsid : sid ≠ "") (hfind : assocFind st.sessions sid = some e)
    (htsid : e.transportSessionId = some sid) :
    handleGetDelete st (some sid) "DELETE" = (oncloseTeardown e st, .forwarded e.serverId) := by
  have hg : getSessionEntry st (some sid) = some e := by simp [getSessionEntry, hsid, hfind]
  have htr : sessionIdTruthy e.transportSessionId = true := by
    simp [htsid, sessionIdTruthy, hsid]
  have hcond : ("DELETE" = "DELETE" ∧ sessionIdTruthy e.transportSessionId = true) := ⟨rfl, htr⟩
  simp only [handleGetDelete, hg, reduceIte, hcond, if_true, Prod.mk.injEq, and_true]
  rw [oncloseTeardown_eq st sid e hsid htsid hfind]
  simp [htsid, assocErase_idem, clearResources_idem]

/- Preservation of an absent session id through any request. -/

theorem oncloseTeardown_sessions_none (e : SessionEntry) (st : GatewayState) (sid : String)
    (h : assocFind st.sessions sid = none) :
    assocFind (oncloseTeardown e st).sessions sid = none := by
  unfold oncloseTeardown
  cases htsid : e.transportSessionId with
  | none => simpa using h
  | some k =>
    dsimp only
    by_cases hc : (k ≠ "" ∧ (assocFind st.sessions k).isSome = true)
    · rw [if_pos hc]
      exact assocFind_erase_none _ _ _ h
    · rw [if_neg hc]
      exact h

theorem handleGetDelete_sessions_none (st : GatewayState) (hdr : Option String) (m sid : String)
    (h : assocFind st.sessions sid = none) :
    assocFind (handleGetDelete st hdr m).1.sessions sid = none := by
  unfold handleGetDelete
  cases hs : getSessionEntry st hdr with
  | none => simpa using h
  | some e =>
    dsimp only
    by_cases hc : (m = "DELETE" ∧ sessionIdTruthy e.transportSessionId = true)
    · rw [if_pos hc, if_pos hc.1]
      exact assocFind_erase_none _ _ _ (oncloseTeardown_sessions_none e st sid h)
    · rw [if_neg hc]
      by_cases hm : m = "DELETE"
      · rw [if_pos hm]
        exact oncloseTeardown_sessions_none e st sid h
      · rw [if_neg hm]
        exact h

theorem handlePostParsed_sessions_none (isInit : Json → Bool) (inp : StepInputs)
    (st : GatewayState) (hdr : Option String) (pb : Option Json) (sid : String)
    (h : assocFind st.sessions sid = none) (hfresh : inp.freshId ≠ sid) :
    assocFind (handlePostParsed isInit inp st hdr pb).1.sessions sid = none := by
  unfold handlePostParsed
  cases hs : getSessionEntry st hdr with
  | some e => simpa using h
  | none =>
    cases pb with
    | none => simpa using h
    | some j =>
      by_cases hj : (jsTruthy j && isInit j) = true
      · have hne : sid ≠ inp.freshId := fun he => hfresh he.symm
        simp only [hj, if_true, handshakeStep]
        rw [assocFind_set_ne _ _ _ _ hne]
        exact h
      · simpa [hj] using h

theorem handlePost_sessions_none (pj : String → Option Json) (isInit : Json → Bool)
    (inp : StepInputs) (st : GatewayState) (req : HttpRequest) (sid : String)
    (h : assocFind st.sessions sid = none) (hfresh : inp.freshId ≠ sid) :
    assocFind (handlePost pj isInit inp st req).1.sessions sid = none := by
  unfold handlePost
  by_cases hb : req.rawBody = ""
  · simp only [hb, if_true]
    exact handlePostParsed_sessions_none isInit inp st req.sessionHeader none sid h hfresh
  · simp only [hb, if_false]
    cases hp : pj req.rawBody with
    | none => simpa using h
    | some j =>
      exact handlePostParsed_sessions_none isInit inp st req.sessionHeader (some j) sid h hfresh

theorem handleRequest_sessions_none (pj : String → Option Json) (isInit : Json → Bool)
    (np : String) (inp : StepInputs) (st : GatewayState) (req : HttpRequest) (sid : String)
    (h : assocFind st.sessions sid = none) (hfresh : inp.freshId ≠ sid) :
    assocFind (handleRequest pj isInit np inp st req).1.sessions sid = none := by
  unfold handleRequest
  cases hu : req.url with
  | none => simpa using h
  | some p =>
    dsimp only
    by_cases hd : startsWithStr p (np ++ "/resources/") = true
    · rw [if_pos hd]
      exact h
    · rw [if_neg hd]
      by_cases hp : p ≠ np
      · rw [if_pos hp]
        exact h
      · rw [if_neg hp]
        by_cases hm : req.method.getD "GET" = "POST"
        · rw [if_pos hm]
          exact handlePost_sessions_none pj isInit inp st req sid h hfresh
        · rw [if_neg hm]
          by_cases hgd : (req.method.getD "GET" = "GET" ∨ req.method.getD "GET" = "DELETE")
          · rw [if_pos hgd]
            exact handleGetDelete_sessions_none st req.sessionHeader (req.method.getD "GET") sid h
          · rw [if_neg hgd]
            exact h

theorem runTrace_sessions_none (pj : String → Option Json) (isInit : Json → Bool)
    (np : String) (st : GatewayState) (steps : List (StepInputs × HttpRequest)) (sid : String)
    (h : assocFind st.sessions sid = none)
    (hf : ∀ s ∈ steps, (Prod.fst s).freshId ≠ sid) :
    assocFind (runTrace pj isInit np st steps).sessions sid = none := by
  induction steps generalizing st with
  | nil => simpa [runTrace] using h
  | cons s rest ih =>
    rw [runTrace]
    exact ih _ (handleRequest_sessions_none pj isInit np s.1 st s.2 sid h
      (hf s (List.mem_cons_self s rest))) (fun s2 hs2 => hf s2 (List.mem_cons_of_mem s hs2))

/-- C2: a DELETE on the protocol path carrying a live session id removes that
id from the registry; any following GET on the protocol path with the same id
is answered 400 with body "Invalid or missing session ID" and changes nothing;
and along any further trace of requests whose handshakes mint ids different
from the deleted one (as the random generator does), the id never maps to a
session again - the CLOSED state is terminal. -/
theorem c2_delete_terminal (pj : String → Option Json) (isInit : Json → Bool)
    (np : String) (inp : StepInputs) (st : GatewayState) (sid : String) (e : SessionEntry)
    (body : String) (hwf : WellFormedSessions st)
    (hl : assocFind st.sessions sid = some e) :
    assocFind
        (handleRequest pj isInit np inp st ⟨some np, some "DELETE", some sid, body⟩).1.sessions
        sid = none ∧
    (∀ (inp2 : StepInputs) (body2 : String),
      handleRequest pj isInit np inp2
          (handleRequest pj isInit np inp st ⟨some np, some "DELETE", some sid, body⟩).1
          ⟨some np, some "GET", some sid, body2⟩
        = ((handleRequest pj isInit np inp st ⟨some np, some "DELETE", some sid, body⟩).1,
           .sent 400 (.text "Invalid or missing session ID"))) ∧
    (∀ steps : List (StepInputs × HttpRequest), (∀ s ∈ steps, (Prod.fst s).freshId ≠ sid) →
      assocFind
        (runTrace pj isInit np
          (handleRequest pj isInit np inp st ⟨some np, some "DELETE", some sid, body⟩).1
          steps).sessions sid = none) := by
  obtain ⟨htsid, hsid⟩ := hwf (sid, e) (assocFind_mem st.sessions sid e hl)
  have hdel : handleRequest pj isInit np inp st ⟨some np, some "DELETE", some sid, body⟩
      = (oncloseTeardown e st, .forwarded e.serverId) := by
    rw [handleRequest_protocol pj isInit np inp st _ rfl]
    simpa using handleGetDelete_delete_eq st sid e hsid hl htsid
  have hnone : assocFind (oncloseTeardown e st).sessions sid = none := by
    rw [oncloseTeardown_eq st sid e hsid htsid hl]
    exact assocFind_erase_self st.sessions sid
  refine ⟨by rw [hdel]; exact hnone, ?_, ?_⟩
  · intro inp2 body2
    rw [hdel]
    have hsess : getSessionEntry (oncloseTeardown e st) (some sid) = none := by
      simp [getSessionEntry, hsid, hnone]
    exact getdelete_no_session pj isInit np inp2 (oncloseTeardown e st) (some sid) "GET" body2
      (Or.inl rfl) hsess
  · intro steps hfresh
    rw [hdel]
    exact runTrace_sessions_none pj isInit np (oncloseTeardown e st) steps sid hnone hfresh

theorem c2_delete_terminal_witness :
    assocFind
        (handleRequest (fun _ => none) (fun _ => false) "/mcp" ⟨"f", 9, 0, true⟩
          ⟨[("s1", ⟨7, some "s1"⟩)], [(7, "s1")], [], []⟩
          ⟨some "/mcp", some "DELETE", some "s1", ""⟩).1.sessions "s1" = none ∧
    handleRequest (fun _ => none) (fun _ => false) "/mcp" ⟨"g", 10, 0, true⟩
        (handleRequest (fun _ => none) (fun _ => false) "/mcp" ⟨"f", 9, 0, true⟩
          ⟨[("s1", ⟨7, some "s1"⟩)], [(7, "s1")], [], []⟩
          ⟨some "/mcp", some "DELETE", some "s1", ""⟩).1
        ⟨some "/mcp", some "GET", some "s1", ""⟩
      = ((handleRequest (fun _ => none) (fun _ => false) "/mcp" ⟨"f", 9, 0, true⟩
          ⟨[("s1", ⟨7, some "s1"⟩)], [(7, "s1")], [], []⟩
          ⟨some "/mcp", some "DELETE", some "s1", ""⟩).1,
         .sent 400 (.text "Invalid or missing session ID")) ∧
    assocFind
        (runTrace (fun _ => none) (fun _ => false) "/mcp"
          (handleRequest (fun _ => none) (fun _ => false) "/mcp" ⟨"f", 9, 0, true⟩
            ⟨[("s1", ⟨7, some "s1"⟩)], [(7, "s1")], [], []⟩
            ⟨some "/mcp", some "DELETE", some "s1", ""⟩).1
          [(⟨"s2", 11, 0, true⟩, ⟨some "/mcp", some "POST", none, "{}"⟩)]).sessions "s1"
      = none := by
  have h := c2_delete_terminal (fun _ => none) (fun _ => false) "/mcp" ⟨"f", 9, 0, true⟩
    ⟨[("s1", ⟨7, some "s1"⟩)], [(7, "s1")], [], []⟩ "s1" ⟨7, some "s1"⟩ ""
    (by intro p hp; simp at hp; simp [hp]) rfl
  exact ⟨h.1, h.2.1 ⟨"g", 10, 0, true⟩ "", h.2.2 _ (by decide)⟩

/-- C7: a DELETE on the protocol path that resolves to an active session
performs, after forwarding to the transport, the full teardown: the resulting
state is exactly the onclose teardown of that session, in which no resource
owned by the session's server instance remains, the session id is gone from
the registry, the server instance is closed and its sessionByServer binding is
removed; and the teardown is idempotent, so the transport signalling
asynchronous closure instead, or in addition, has the same once-only effect. -/
theorem c7_delete_full_teardown (pj : String → Option Json) (isInit : Json → Bool)
    (np : String) (inp : StepInputs) (st : GatewayState) (sid : String) (e : SessionEntry)
    (body : String) (hwf : WellFormedSessions st)
    (hl : assocFind st.sessions sid = some e) :
    (handleRequest pj isInit np inp st ⟨some np, some "DELETE", some sid, body⟩).1
      = oncloseTeardown e st ∧
    (∀ r ∈ (oncloseTeardown e st).resources, r.owner ≠ e.serverId) ∧
    assocFind (oncloseTeardown e st).sessions sid = none ∧
    e.serverId ∈ (oncloseTeardown e st).closedServers ∧
    assocFind (oncloseTeardown e st).sessionByServer e.serverId = none ∧
    oncloseTeardown e (oncloseTeardown e st) = oncloseTeardown e st := by
  obtain ⟨htsid, hsid⟩ := hwf (sid, e) (assocFind_mem st.sessions sid e hl)
  have heq := oncloseTeardown_eq st sid e hsid htsid hl
  refine ⟨?_, ?_, ?_, ?_, ?_, ?_⟩
  · rw [handleRequest_protocol pj isInit np inp st _ rfl]
    simpa using congrArg Prod.fst (handleGetDelete_delete_eq st sid e hsid hl htsid)
  · rw [heq]
    intro r hr
    have := List.of_mem_filter hr
    simpa using this
  · rw [heq]
    exact assocFind_erase_self st.sessions sid
  · rw [heq]
    exact insertClosed_mem st.closedServers e.serverId
  · rw [heq]
    exact assocFind_erase_self st.sessionByServer e.serverId
  · have hnone : assocFind (oncloseTeardown e st).sessions sid = none := by
      rw [heq]; exact assocFind_erase_self st.sessions sid
    rw [oncloseTeardown_no_session (oncloseTeardown e st) e sid htsid hnone, heq]
    simp only [assocErase_idem, clearResources_idem,
      insertClosed_of_mem _ _ (insertClosed_mem st.closedServers e.serverId)]

/- Drain lemmas for the shutdown coordinator. -/

theorem assocFind_not_mem_keys {α β : Type} [DecidableEq α] (m : List (α × β)) (k : α)
    (h : k ∉ m.map Prod.fst) : assocFind m k = none := by
  rw [assocFind_eq_none_iff]
  intro p hp he
  exact h (he ▸ List.mem_map_of_mem Prod.fst hp)

theorem closeLoop_all (fails : Nat → Bool) (m : List (String × SessionEntry))
    (hnd : (m.map Prod.fst).Nodup) :
    closeLoop fails (m.map Prod.fst) m
      = ([], m.map (fun p => p.2.serverId),
         (m.filter (fun p => fails p.2.serverId)).map Prod.fst) := by
  induction m with
  | nil => rfl
  | cons p rest ih =>
    obtain ⟨k, e⟩ := p
    simp only [List.map_cons] at hnd
    have hk : k ∉ rest.map Prod.fst := (List.nodup_cons.mp hnd).1
    have hnd2 := (List.nodup_cons.mp hnd).2
    have hfind : assocFind ((k, e) :: rest) k = some e := by
      simp [assocFind, List.find?_cons]
    have herase : assocErase ((k, e) :: rest) k = rest := by
      have h1 : assocErase rest k = rest :=
        assocErase_of_find_none rest k (assocFind_not_mem_keys rest k hk)
      simp only [assocErase, List.filter_cons] at h1 ⊢
      simpa using h1
    show closeLoop fails (k :: rest.map Prod.fst) ((k, e) :: rest) = _
    rw [closeLoop]
    simp only [hfind, herase, ih hnd2]
    by_cases hf : fails e.serverId = true <;> simp [List.filter_cons, hf]

/-- C8: once triggered, the shutdown marks itself so that every repeated
signal is a no-op; the drain enumerates all live sessions, attempts to close
every session's server instance whatever the set of failing closes, logs
exactly the failing ones, and leaves the registry empty afterwards. -/
theorem c8_shutdown_drain (fails : Nat → Bool) (st : GatewayState)
    (hnd : (st.sessions.map Prod.fst).Nodup) :
    (closeDrain fails st).1.sessions = [] ∧
    (closeDrain fails st).2.1 = st.sessions.map (fun p => p.2.serverId) ∧
    (closeDrain fails st).2.2
      = (st.sessions.filter (fun p => fails p.2.serverId)).map Prod.fst ∧
    (∀ (ctl : ShutdownCtl) (g : GatewayState), ctl.isShuttingDown = true →
       shutdownSignal fails ctl g = (ctl, g, false)) ∧
    (shutdownSignal fails ⟨false⟩ st).1.isShuttingDown = true ∧
    (shutdownSignal fails ⟨false⟩ st).2.1.sessions = [] := by
  have hloop := closeLoop_all fails st.sessions hnd
  refine ⟨?_, ?_, ?_, ?_, ?_, ?_⟩
  · simp [closeDrain, hloop]
  · simp [closeDrain, hloop]
  · simp [closeDrain, hloop]
  · intro ctl g h
    simp [shutdownSignal, h]
  · simp [shutdownSignal]
  · simp [shutdownSignal, closeDrain, hloop]

theorem c8_shutdown_drain_witness :
    (closeDrain (fun n => decide (n = 1))
        ⟨[("a", ⟨1, some "a"⟩), ("b", ⟨2, some "b"⟩)], [(1, "a"), (2, "b")], [], []⟩).1.sessions
      = [] ∧
    (closeDrain (fun n => decide (n = 1))
        ⟨[("a", ⟨1, some "a"⟩), ("b", ⟨2, some "b"⟩)], [(1, "a"), (2, "b")], [], []⟩).2.1
      = [1, 2] ∧
    (closeDrain (fun n => decide (n = 1))
        ⟨[("a", ⟨1, some "a"⟩), ("b", ⟨2, some "b"⟩)], [(1, "a"), (2, "b")], [], []⟩).2.2
      = ["a"] ∧
    shutdownSignal (fun n => decide (n = 1)) ⟨true⟩
        ⟨[("a", ⟨1, some "a"⟩), ("b", ⟨2, some "b"⟩)], [(1, "a"), (2, "b")], [], []⟩
      = (⟨true⟩,
         ⟨[("a", ⟨1, some "a"⟩), ("b", ⟨2, some "b"⟩)], [(1, "a"), (2, "b")], [], []⟩,
         false) := by
  have h := c8_shutdown_drain (fun n => decide (n = 1))
    ⟨[("a", ⟨1, some "a"⟩), ("b", ⟨2, some "b"⟩)], [(1, "a"), (2, "b")], [], []⟩ (by decide)
  exact ⟨h.1, h.2.1.trans rfl, h.2.2.1.trans rfl,
    h.2.2.2.1 ⟨true⟩ ⟨[("a", ⟨1, some "a"⟩), ("b", ⟨2, some "b"⟩)], [(1, "a"), (2, "b")], [], []⟩ rfl⟩

theorem c7_delete_full_teardown_witness :
    (handleRequest (fun _ => none) (fun _ => false) "/mcp" ⟨"f", 9, 0, true⟩
        ⟨[("s1", ⟨7, some "s1"⟩)], [(7, "s1")], [⟨7, "r1", "/tmp/f", none, "n", 10⟩], []⟩
        ⟨some "/mcp", some "DELETE", some "s1", ""⟩).1
      = oncloseTeardown ⟨7, some "s1"⟩
          ⟨[("s1", ⟨7, some "s1"⟩)], [(7, "s1")], [⟨7, "r1", "/tmp/f", none, "n", 10⟩], []⟩ ∧
    assocFind (oncloseTeardown ⟨7, some "s1"⟩
        ⟨[("s1", ⟨7, some "s1"⟩)], [(7, "s1")], [⟨7, "r1", "/tmp/f", none, "n", 10⟩], []⟩).sessions
        "s1" = none ∧
    7 ∈ (oncloseTeardown ⟨7, some "s1"⟩
        ⟨[("s1", ⟨7, some "s1"⟩)], [(7, "s1")], [⟨7, "r1", "/tmp/f", none, "n", 10⟩], []⟩).closedServers := by
  have h := c7_delete_full_teardown (fun _ => none) (fun _ => false) "/mcp" ⟨"f", 9, 0, true⟩
    ⟨[("s1", ⟨7, some "s1"⟩)], [(7, "s1")], [⟨7, "r1", "/tmp/f", none, "n", 10⟩], []⟩
    "s1" ⟨7, some "s1"⟩ "" (by intro p hp; simp at hp; simp [hp]) rfl
  exact ⟨h.1, h.2.2.1, h.2.2.2.1⟩

/- Lemmas about trimming, for the path-normalization claim. -/

theorem ws_slash : Char.isWhitespace '/' = false := by decide

theorem dropWhileHeadFalse {α : Type} (p : α → Bool) (l : List α) (c : α)
    (h : (l.dropWhile p).head? = some c) : p c = false := by
  induction l with
  | nil => simp [List.dropWhile] at h
  | cons a t ih =>
    rw [List.dropWhile_cons] at h
    by_cases hp : p a = true
    · rw [if_pos hp] at h
      exact ih h
    · rw [if_neg hp] at h
      rw [List.head?_cons, Option.some.injEq] at h
      subst h
      cases hpa : p a with
      | true => exact absurd hpa hp
      | false => rfl

theorem dropWhileSelf {α : Type} (p : α → Bool) (l : List α)
    (h : ∀ c, l.head? = some c → p c = false) :
    l.dropWhile p = l := by
  cases l with
  | nil => rfl
  | cons a t =>
    rw [List.dropWhile_cons, if_neg]
    simp [h a rfl]

theorem suffixGetLast {α : Type} (a b : List α) (c : α) (hs : a <:+ b)
    (h : a.getLast? = some c) : b.getLast? = some c := by
  obtain ⟨t, rfl⟩ := hs
  rw [List.getLast?_append, h]
  rfl

theorem getLastCons {α : Type} (a : α) (l : List α) (h : l ≠ []) :
    (a :: l).getLast? = l.getLast? := by
  cases l with
  | nil => exact absurd rfl h
  | cons b t => exact List.getLast?_cons_cons

theorem headDropLast {α : Type} (l : List α) (h : l.dropLast ≠ []) :
    l.dropLast.head? = l.head? := by
  cases l with
  | nil => simp at h
  | cons a t =>
    cases t with
    | nil => simp at h
    | cons b u =>
      rw [List.dropLast_cons_of_ne_nil (by simp : (b :: u) ≠ [])]
      rfl

theorem eqDropLastAppend {α : Type} (l : List α) (c : α) (h : l.getLast? = some c) :
    l = l.dropLast ++ [c] := by
  induction l with
  | nil => simp at h
  | cons a t ih =>
    cases t with
    | nil =>
      rw [List.getLast?_singleton, Option.some.injEq] at h
      simp [h]
    | cons b u =>
      rw [getLastCons a (b :: u) (by simp)] at h
      rw [List.dropLast_cons_of_ne_nil (by simp : (b :: u) ≠ []), List.cons_append]
      exact congrArg (List.cons a) (ih h)

theorem trimChars_head (l : List Char) (c : Char)
    (h : (trimChars l).head? = some c) : c.isWhitespace = false := by
  unfold trimChars at h
  rw [List.head?_reverse] at h
  have hsuff : ((l.dropWhile Char.isWhitespace).reverse.dropWhile Char.isWhitespace)
      <:+ (l.dropWhile Char.isWhitespace).reverse := List.dropWhile_suffix _
  have h2 : ((l.dropWhile Char.isWhitespace).reverse).getLast? = some c :=
    suffixGetLast _ _ c hsuff h
  rw [List.getLast?_reverse] at h2
  exact dropWhileHeadFalse _ _ c h2

theorem trimChars_last (l : List Char) (c : Char)
    (h : (trimChars l).getLast? = some c) : c.isWhitespace = false := by
  unfold trimChars at h
  rw [List.getLast?_reverse] at h
  exact dropWhileHeadFalse _ _ c h

theorem trimChars_stable (l : List Char)
    (h1 : ∀ c, l.head? = some c → c.isWhitespace = false)
    (h2 : ∀ c, l.getLast? = some c → c.isWhitespace = false) :
    trimChars l = l := by
  unfold trimChars
  rw [dropWhileSelf _ _ h1]
  rw [dropWhileSelf _ _ (fun c hc => h2 c (by rwa [List.head?_reverse] at hc))]
  exact List.reverse_reverse l

theorem trimChars_stable_slash (r : List Char) (hhead : r.head? = some '/')
    (hlast : ∀ c, r.getLast? = some c → c.isWhitespace = false) : trimChars r = r :=
  trimChars_stable r
    (fun c hc => by
      have := hhead.symm.trans hc
      rw [Option.some.injEq] at this
      subst this
      exact ws_slash)
    hlast

theorem normChars_fixed (r : List Char) (hne : r ≠ [])
    (hhead : r.head? = some '/') (hlast : r.getLast? ≠ some '/')
    (hstable : trimChars r = r) :
    normChars r = some r := by
  unfold normChars
  dsimp only
  rw [hstable, if_neg hne, if_pos hhead, if_neg (fun hc => hlast hc.1)]

theorem getLastIsSome {α : Type} (u : List α) (h : u ≠ []) : ∃ c, u.getLast? = some c := by
  cases hu : u.getLast? with
  | none => exact absurd (List.getLast?_eq_none_iff.mp hu) h
  | some c => exact ⟨c, rfl⟩

theorem normChars_good (l : List Char) (h1 : trimChars l ≠ [])
    (h2 : tailOkChars (trimChars l) = true) :
    ∃ r : List Char, normChars l = some r ∧ r.head? = some '/' ∧
      (r.getLast? = some '/' → r = ['/']) ∧ normChars r = some r := by
  have hthead : ∀ c, (trimChars l).head? = some c → c.isWhitespace = false :=
    fun c hc => trimChars_head l c hc
  have htlast : ∀ c, (trimChars l).getLast? = some c → c.isWhitespace = false :=
    fun c hc => trimChars_last l c hc
  have htstable : trimChars (trimChars l) = trimChars l :=
    trimChars_stable _ hthead htlast
  unfold normChars
  dsimp only
  rw [if_neg h1]
  by_cases hstart : (trimChars l).head? = some '/'
  · rw [if_pos hstart]
    by_cases hb : ((trimChars l).getLast? = some '/' ∧ trimChars l ≠ ['/'])
    · rw [if_pos hb]
      have h2' := h2
      unfold tailOkChars at h2'
      rw [if_pos hb.1] at h2'
      simp only [Bool.or_eq_true, decide_eq_true_eq] at h2'
      by_cases hunil : (trimChars l).dropLast = []
      · have ht : trimChars l = ['/'] := by
          have := eqDropLastAppend (trimChars l) '/' hb.1
          rw [hunil] at this
          simpa using this
        exact absurd ht hb.2
      · rcases h2' with (h0 | h0) | h0
        · exact absurd h0 hunil
        · have ht : trimChars l = ['/', '/'] := by
            have := eqDropLastAppend (trimChars l) '/' hb.1
            rw [h0] at this
            simpa using this
          refine ⟨['/'], ?_, rfl, fun _ => rfl, by decide⟩
          rw [ht]
          rfl
        · obtain ⟨c, hc⟩ := getLastIsSome (trimChars l).dropLast hunil
          simp only [lastOk, hc, Bool.and_eq_true, Bool.not_eq_true',
            beq_eq_false_iff_ne, ne_eq] at h0
          refine ⟨(trimChars l).dropLast, rfl, ?_, ?_, ?_⟩
          · rw [headDropLast _ hunil]
            exact hstart
          · intro hl2
            rw [hc, Option.some.injEq] at hl2
            exact absurd hl2 h0.1
          · apply normChars_fixed _ hunil
            · rw [headDropLast _ hunil]
              exact hstart
            · rw [hc]
              intro he
              rw [Option.some.injEq] at he
              exact h0.1 he
            · apply trimChars_stable_slash
              · rw [headDropLast _ hunil]
                exact hstart
              · intro c2 hc2
                rw [hc, Option.some.injEq] at hc2
                subst hc2
                exact h0.2
    · rw [if_neg hb]
      refine ⟨trimChars l, rfl, hstart, ?_, ?_⟩
      · intro hl2
        by_contra hroot
        exact hb ⟨hl2, hroot⟩
      · by_cases hroot : trimChars l = ['/']
        · rw [hroot]
          decide
        · have hlast2 : (trimChars l).getLast? ≠ some '/' := fun he => hb ⟨he, hroot⟩
          exact normChars_fixed _ h1 hstart hlast2 htstable
  · rw [if_neg hstart]
    have hlastw : ('/' :: trimChars l).getLast? = (trimChars l).getLast? :=
      getLastCons '/' _ h1
    have hwroot : ('/' :: trimChars l) ≠ ['/'] := by
      intro he
      rw [List.cons.injEq] at he
      exact h1 he.2
    by_cases hb : (('/' :: trimChars l).getLast? = some '/' ∧ ('/' :: trimChars l) ≠ ['/'])
    · rw [if_pos hb]
      have htl : (trimChars l).getLast? = some '/' := hlastw.symm.trans hb.1
      have h2' := h2
      unfold tailOkChars at h2'
      rw [if_pos htl] at h2'
      simp only [Bool.or_eq_true, decide_eq_true_eq] at h2'
      by_cases hunil : (trimChars l).dropLast = []
      · have ht : trimChars l = ['/'] := by
          have := eqDropLastAppend (trimChars l) '/' htl
          rw [hunil] at this
          simpa using this
        rw [ht] at hstart
        exact absurd rfl hstart
      · rcases h2' with (h0 | h0) | h0
        · exact absurd h0 hunil
        · have ht : trimChars l = ['/', '/'] := by
            have := eqDropLastAppend (trimChars l) '/' htl
            rw [h0] at this
            simpa using this
          rw [ht] at hstart
          exact absurd rfl hstart
        · obtain ⟨c, hc⟩ := getLastIsSome (trimChars l).dropLast hunil
          simp only [lastOk, hc, Bool.and_eq_true, Bool.not_eq_true',
            beq_eq_false_iff_ne, ne_eq] at h0
          have hdrop : ('/' :: trimChars l).dropLast = '/' :: (trimChars l).dropLast :=
            List.dropLast_cons_of_ne_nil h1
          have hlast3 : ('/' :: (trimChars l).dropLast).getLast? = some c := by
            rw [getLastCons '/' _ hunil]
            exact hc
          refine ⟨'/' :: (trimChars l).dropLast, ?_, rfl, ?_, ?_⟩
          · rw [hdrop]
          · intro hl2
            rw [hlast3, Option.some.injEq] at hl2
            exact absurd hl2 h0.1
          · apply normChars_fixed _ (List.cons_ne_nil _ _) List.head?_cons
            · rw [hlast3]
              intro he
              rw [Option.some.injEq] at he
              exact h0.1 he
            · apply trimChars_stable_slash _ List.head?_cons
              intro c2 hc2
              rw [hlast3, Option.some.injEq] at hc2
              subst hc2
              exact h0.2
    · rw [if_neg hb]
      have hlast2 : ('/' :: trimChars l).getLast? ≠ some '/' := fun he => hb ⟨he, hwroot⟩
      refine ⟨'/' :: trimChars l, rfl, rfl, ?_, ?_⟩
      · intro hl2
        exact absurd hl2 hlast2
      · apply normChars_fixed _ (List.cons_ne_nil _ _) List.head?_cons hlast2
        apply trimChars_stable_slash _ List.head?_cons
        intro c2 hc2
        rw [getLastCons '/' _ h1] at hc2
        exact htlast c2 hc2

theorem startsWithStr_slash (r : String) (h : r.data.head? = some '/') :
    startsWithStr r "/" = true := by
  unfold startsWithStr
  cases hr : r.data with
  | nil => rw [hr] at h; simp at h
  | cons c t =>
    rw [hr] at h
    rw [List.head?_cons, Option.some.injEq] at h
    subst h
    simp [startsL]

/-- C9 counterexample: the claim fails on the code: normalization of "a//"
returns "/a/", which ends in a trailing slash although it is not the root,
and normalizing it again gives "/a", so normalization is not idempotent;
moreover the non-empty whitespace-only input " " yields no result at all
(normalizeHttpPath throws on it). -/
theorem c9_counterexample :
    normalizeHttpPath "a//" = some "/a/" ∧
    ("/a/" : String).data.getLast? = some '/' ∧ ("/a/" : String) ≠ "/" ∧
    normalizeHttpPath "/a/" = some "/a" ∧ some ("/a" : String) ≠ some ("/a/" : String) ∧
    (" " : String) ≠ "" ∧ normalizeHttpPath " " = none := by decide

/-- C9 amended: for every input whose trimmed form is non-empty, and whose
trimmed form, when it ends in a slash, is the root, the double slash, or has a
character that is neither a slash nor whitespace just before that final slash
(only one trailing slash is ever stripped), normalization returns a string
with a leading slash and no trailing slash except for the root, and applying
normalization to its own output returns the same string. -/
theorem c9_normalize_amended (s : String)
    (h1 : (jsTrim s).data ≠ [])
    (h2 : tailOkChars (jsTrim s).data = true) :
    ∃ r : String, normalizeHttpPath s = some r ∧
      startsWithStr r "/" = true ∧
      (r.data.getLast? = some '/' → r = "/") ∧
      normalizeHttpPath r = some r := by
  obtain ⟨rl, hn, hhead, himp, hfix⟩ :=
    normChars_good s.data (fun he => h1 he) h2
  refine ⟨⟨rl⟩, ?_, ?_, ?_, ?_⟩
  · unfold normalizeHttpPath
    rw [hn]
    rfl
  · exact startsWithStr_slash ⟨rl⟩ hhead
  · intro hl
    have hroot := himp hl
    show (⟨rl⟩ : String) = "/"
    rw [hroot]
  · show (normChars rl).map (fun l => (⟨l⟩ : String)) = some ⟨rl⟩
    rw [hfix]
    rfl

theorem c9_normalize_amended_witness :
    ∃ r : String, normalizeHttpPath " /mcp/ " = some r ∧
      startsWithStr r "/" = true ∧
      (r.data.getLast? = some '/' → r = "/") ∧
      normalizeHttpPath r = some r :=
  c9_normalize_amended " /mcp/ " (by decide) (by decide)
